import Mathlib

/-!
Formal model of the moderation / support-ticket bot implemented in `src/bot.py`.

Python strings are modeled as lists of characters (`Str`), Python integers as
`Int` / `Nat`, the two SQLite tables (`user_warns`, `support_tickets`) as lists
of row structures kept in rowid (= insertion) order, and the chat-directory
lookups performed through the transport as function parameters returning
`Option` (a `none` models both `TelegramBadRequest` and the generic exception
handlers, which the code treats identically).  Each database helper and each
handler's decision logic is translated clause by clause from the source.
-/

namespace ModBot

/-- Python strings, modeled as lists of characters. -/
abbrev Str := List Char

/-- The character list of a Lean string literal (used to write Python string
literals from the source). -/
def str (s : String) : Str := s.data

/-- The whitespace characters recognized by Python `str.strip()` and
`str.split()` (the ASCII subset: space, tab, LF, VT, FF, CR). -/
def pySpace (c : Char) : Bool :=
  c == ' ' || c == '\t' || c == '\n' || c == Char.ofNat 11 || c == Char.ofNat 12 || c == '\r'

/-- Remove leading Python whitespace. -/
def ltrim (s : Str) : Str := s.dropWhile pySpace

/-- Remove trailing Python whitespace. -/
def rtrim (s : Str) : Str := (s.reverse.dropWhile pySpace).reverse

/-- Python `str.strip()`. -/
def pyStrip (s : Str) : Str := rtrim (ltrim s)

/-- Python `str.isdigit()` (ASCII digits). -/
def pyIsDigit (s : Str) : Bool := !s.isEmpty && s.all Char.isDigit

/-- Numeric value of an ASCII digit string. -/
def digitsVal (s : Str) : Nat := s.foldl (fun a c => a * 10 + (c.toNat - 48)) 0

/-- Python `int(s)` for a string: optional surrounding whitespace, an optional
sign, then ASCII digits; `none` models the `ValueError` raised otherwise. -/
def pyInt? (s : Str) : Option Int :=
  match pyStrip s with
  | '-' :: ds => if pyIsDigit ds then some (-(digitsVal ds : Int)) else none
  | '+' :: ds => if pyIsDigit ds then some (digitsVal ds : Int) else none
  | ds => if pyIsDigit ds then some (digitsVal ds : Int) else none

/-- Negation of `pySpace`, for tokenization. -/
def notSpace (c : Char) : Bool := !pySpace c

/-- Python `s.split(maxsplit=1)`: split on runs of whitespace, at most once;
the result never contains empty strings at the start or end. -/
def pySplit1 (s : Str) : List Str :=
  let s1 := s.dropWhile pySpace
  if s1.isEmpty then []
  else
    let tok := s1.takeWhile notSpace
    let rest := (s1.dropWhile notSpace).dropWhile pySpace
    if rest.isEmpty then [tok] else [tok, rest]

/-- Python `s.split(maxsplit=2)`. -/
def pySplit2 (s : Str) : List Str :=
  let s1 := s.dropWhile pySpace
  if s1.isEmpty then []
  else
    let tok := s1.takeWhile notSpace
    let rest := (s1.dropWhile notSpace).dropWhile pySpace
    if rest.isEmpty then [tok]
    else
      let tok2 := rest.takeWhile notSpace
      let rest2 := (rest.dropWhile notSpace).dropWhile pySpace
      if rest2.isEmpty then [tok, tok2] else [tok, tok2, rest2]

/-- Python `s.endswith(c)` for a single-character suffix. -/
def endsIn (s : Str) (c : Char) : Bool := s.getLast? == some c

/-! ## The warning ledger (`user_warns` table) -/

/-- One row of the `user_warns` table; `rowid` is SQLite's implicit rowid,
`timestamp` the `CURRENT_TIMESTAMP` default, in seconds. -/
structure Warn where
  rowid : Nat
  chatId : Int
  userId : Int
  reason : Str
  timestamp : Nat
deriving Repr, DecidableEq

/-- The `user_warns` table, in rowid (= insertion) order. -/
abbrev WarnDB := List Warn

/-- The `WHERE chat_id = ? AND user_id = ?` filter. -/
def warnMatches (c u : Int) (w : Warn) : Bool := w.chatId == c && w.userId == u

/-- The next implicit rowid SQLite assigns on insertion. -/
def nextRowid (db : WarnDB) : Nat := (db.map Warn.rowid).foldr max 0 + 1

/-- `add_warn_to_db`: `INSERT INTO user_warns (chat_id, user_id, reason)`. -/
def add_warn_to_db (db : WarnDB) (c u : Int) (reason : Str) (now : Nat) : WarnDB :=
  db ++ [⟨nextRowid db, c, u, reason, now⟩]

/-- Stable insertion (scan order preserved among equal timestamps) used to
model `ORDER BY timestamp` ascending. -/
def insertByTs (w : Warn) : List Warn → List Warn
  | [] => [w]
  | v :: rest => if v.timestamp ≤ w.timestamp then v :: insertByTs w rest else w :: v :: rest

/-- Sort by `timestamp` ascending, modeling `ORDER BY timestamp`. -/
def sortByTs : List Warn → List Warn
  | [] => []
  | w :: rest => insertByTs w (sortByTs rest)

/-- `get_user_warns_from_db`:
`SELECT reason FROM user_warns WHERE chat_id = ? AND user_id = ? ORDER BY timestamp`. -/
def get_user_warns_from_db (db : WarnDB) (c u : Int) : List Str :=
  (sortByTs (db.filter (warnMatches c u))).map Warn.reason

/-- The row kept by SQLite's sorter for `ORDER BY timestamp DESC LIMIT 1`: the
scan (index) order is rowid-ascending and the current best row is replaced
only by a strictly greater key, so among equal maximal timestamps the first
row in scan order is returned (behavior confirmed against SQLite 3.40 on the
schema of `init_db`). -/
def pickMax (best : Warn) : List Warn → Warn
  | [] => best
  | v :: rest => pickMax (if best.timestamp < v.timestamp then v else best) rest

/-- The rowid selected by the subquery of `remove_last_warn_from_db`:
`SELECT rowid FROM user_warns WHERE chat_id = ? AND user_id = ?
 ORDER BY timestamp DESC LIMIT 1`. -/
def lastWarnRowid (db : WarnDB) (c u : Int) : Option Nat :=
  match db.filter (warnMatches c u) with
  | [] => none
  | w :: ws => some (pickMax w ws).rowid

/-- `remove_last_warn_from_db`: a single `DELETE ... WHERE rowid = (subquery)`. -/
def remove_last_warn_from_db (db : WarnDB) (c u : Int) : WarnDB :=
  match lastWarnRowid db c u with
  | none => db
  | some r => db.filter (fun w => w.rowid ≠ r)

/-- `clear_warns_from_db`: `DELETE FROM user_warns WHERE chat_id = ? AND user_id = ?`. -/
def clear_warns_from_db (db : WarnDB) (c u : Int) : WarnDB :=
  db.filter (fun w => !warnMatches c u w)

/-! ## The ledger part of `warn_command` (C1) and `unwarn_command` (C8) -/

/-- Result of one `warn_command` call, after the target passed all checks:
the updated table, the count reported in the reply, and whether the reply
carries the escalation recommendation (`if warn_count >= 3`). -/
structure WarnResult where
  db : WarnDB
  count : Nat
  escalation : Bool
deriving Repr, DecidableEq, Inhabited

/-- The ledger/notification step of `warn_command` (src/bot.py:1280-1301):
insert the warning, re-read the pair's warnings, report `len(warns)` and
append the escalation recommendation when `warn_count >= 3`. -/
def warnLedgerStep (db : WarnDB) (c u : Int) (reason : Str) (now : Nat) : WarnResult :=
  let db1 := add_warn_to_db db c u reason now
  let count := (get_user_warns_from_db db1 c u).length
  { db := db1, count := count, escalation := decide (3 ≤ count) }

/-- Iterate `warnLedgerStep` over a list of (reason, time) calls, collecting
each call's result. -/
def warnCalls (db : WarnDB) (c u : Int) : List (Str × Nat) → List WarnResult
  | [] => []
  | (r, t) :: rest =>
    let res := warnLedgerStep db c u r t
    res :: warnCalls res.db c u rest

/-- Outcome of the ledger part of `unwarn_command`. -/
inductive UnwarnOutcome
  | noWarnings
  | removed (remaining : Nat)
deriving Repr, DecidableEq

/-- The ledger step of `unwarn_command` (src/bot.py:1338-1360): if the pair
has no warnings, reply and stop; otherwise delete the last warning and report
the remaining count. -/
def unwarnStep (db : WarnDB) (c u : Int) : UnwarnOutcome × WarnDB :=
  let warns := get_user_warns_from_db db c u
  if warns.isEmpty then (.noWarnings, db)
  else
    let db1 := remove_last_warn_from_db db c u
    (.removed (get_user_warns_from_db db1 c u).length, db1)

/-! ## The support-ticket table and its handlers -/

/-- One row of the `support_tickets` table. -/
structure Ticket where
  id : Nat
  userId : Int
  username : Option Str
  firstName : Option Str
  lastName : Option Str
  ticketType : Str
  message : Str
  photoFileId : Option Str
  status : Str
  adminId : Option Int
  adminResponse : Option Str
  createdAt : Nat
  resolvedAt : Option Nat
deriving Repr, DecidableEq

/-- The `support_tickets` table, in id (= insertion) order. -/
abbrev TicketDB := List Ticket

/-- The next `AUTOINCREMENT` primary key. -/
def nextTicketId (db : TicketDB) : Nat := (db.map Ticket.id).foldr max 0 + 1

/-- `add_support_ticket`: INSERT with `status` defaulting to `'pending'` and
nullable admin fields, returning `cursor.lastrowid`. -/
def add_support_ticket (db : TicketDB) (userId : Int)
    (username firstName lastName : Option Str) (ticketType msg : Str)
    (photoFileId : Option Str) (now : Nat) : Nat × TicketDB :=
  let tid := nextTicketId db
  (tid, db ++ [{ id := tid, userId := userId, username := username, firstName := firstName,
                 lastName := lastName, ticketType := ticketType, message := msg,
                 photoFileId := photoFileId, status := str "pending", adminId := none,
                 adminResponse := none, createdAt := now, resolvedAt := none }])

/-- The effect of `update_ticket_status` on one row: the matching row is
overwritten unconditionally — no check of its current status — and only the
`'resolved'` branch also sets `resolved_at = CURRENT_TIMESTAMP`. -/
def updRow (ticketId : Nat) (adminId : Int) (status : Str) (response : Option Str)
    (now : Nat) (t : Ticket) : Ticket :=
  if t.id = ticketId then
    if status = str "resolved" then
      { t with status := status, adminId := some adminId, adminResponse := response,
               resolvedAt := some now }
    else
      { t with status := status, adminId := some adminId, adminResponse := response }
  else t

/-- `update_ticket_status` (src/bot.py:222-239): apply `updRow` to every row
(the SQL UPDATE touches the rows matching `WHERE id = ?`). -/
def update_ticket_status (db : TicketDB) (ticketId : Nat) (adminId : Int)
    (status : Str) (response : Option Str) (now : Nat) : TicketDB :=
  db.map (updRow ticketId adminId status response now)

/-- `get_ticket_by_id`: `SELECT * FROM support_tickets WHERE id = ?`. -/
def get_ticket_by_id (db : TicketDB) (ticketId : Nat) : Option Ticket :=
  db.find? (fun t => t.id == ticketId)

/-- Decimal rendering, fuel-based so that it reduces structurally; the fuel
`n + 1` always suffices since the argument shrinks by a factor of ten per
step. -/
def natCharsAux : Nat → Nat → Str
  | 0, _ => []
  | fuel + 1, n =>
    if n < 10 then [Nat.digitChar n]
    else natCharsAux fuel (n / 10) ++ [Nat.digitChar (n % 10)]

/-- Decimal rendering of a Python int interpolated into an f-string. -/
def natChars (n : Nat) : Str := natCharsAux (n + 1) n

/-- The user-facing text sent by `resolve_ticket`.  Python lowercases the
type label with `str.lower()`; `Char.toLower` agrees with it on ASCII. -/
def resolvedNoticeText (ticketId : Nat) (ticketType : Str) : Str :=
  str "Ваше " ++ ticketType.map Char.toLower ++ str " #" ++ natChars ticketId ++
    str " рассмотрено.\nРассмотрено модератором.\nСпасибо за обращение!"

/-- Result of the `resolve_` callback handler: the updated table and the
notification (recipient, text) sent to the requester when the row exists. -/
structure ResolveResult where
  db : TicketDB
  notified : Option (Int × Str)
deriving Repr, DecidableEq

/-- `resolve_ticket` (src/bot.py:726-768): unconditionally update the ticket
to `resolved` (with response `"Рассмотрено модератором"`), then re-read it
and notify the requester whenever the row exists — the handler never
inspects the prior status. -/
def resolve_ticket (db : TicketDB) (ticketId : Nat) (adminId : Int) (now : Nat) : ResolveResult :=
  let db1 := update_ticket_status db ticketId adminId (str "resolved")
      (some (str "Рассмотрено модератором")) now
  match get_ticket_by_id db1 ticketId with
  | some t => { db := db1, notified := some (t.userId, resolvedNoticeText ticketId t.ticketType) }
  | none => { db := db1, notified := none }

/-! ## The respond pipeline (`process_response` / `send_response`) -/

/-- The preview message built by `process_response` (src/bot.py:817-819). -/
def preview_text (ticketId : Nat) (t : Str) : Str :=
  str "Предпросмотр ответа для обращения #" ++ natChars ticketId ++
    str "\n\nВаш ответ:\n" ++ t ++ str "\n\nПодтвердите отправку:"

/-- Python `s.split(chr(10))`: split on every newline, keeping empty pieces. -/
def splitNl : Str → List Str
  | [] => [[]]
  | c :: rest =>
    if c == '\n' then [] :: splitNl rest
    else
      match splitNl rest with
      | [] => [[c]]
      | l :: ls => (c :: l) :: ls

/-- Whether `p` begins `s` (Python `s.startswith(p)`). -/
def isPre : Str → Str → Bool
  | [], _ => true
  | _ :: _, [] => false
  | a :: p, b :: s => a == b && isPre p s

/-- Python substring containment `pat in s`. -/
def hasSub (pat : Str) : Str → Bool
  | [] => isPre pat []
  | c :: rest => isPre pat (c :: rest) || hasSub pat rest

/-- The line announcing the response body inside the preview. -/
def markerLine : Str := str "Ваш ответ:"

/-- The token starting the confirmation line of the preview. -/
def confirmTok : Str := str "Подтвердите"

/-- The line loop of `send_response` (src/bot.py:839-848) that re-extracts
the moderator's response from the preview message: lines after a line
containing `"Ваш ответ:"` are accumulated (with a newline each) when
non-empty and not starting with `"Подтвердите"`, which instead stops the
loop. -/
def extractLoop : List Str → Bool → Str → Str
  | [], _, acc => acc
  | line :: rest, inResp, acc =>
    if hasSub markerLine line then extractLoop rest true acc
    else if inResp && !line.isEmpty && !isPre confirmTok line then
      extractLoop rest inResp (acc ++ line ++ ['\n'])
    else if isPre confirmTok line then acc
    else extractLoop rest inResp acc

/-- `response_text` as computed by `send_response`: the loop's accumulator,
finally `strip()`-ped. -/
def extract_response (msg : Str) : Str := pyStrip (extractLoop (splitNl msg) false [])

/-- The notification text relayed to the requester by `send_response`. -/
def respondNoticeText (ticketId : Nat) (ticketType : Str) (responseText : Str) : Str :=
  str "Ответ на ваше " ++ ticketType.map Char.toLower ++ str " #" ++ natChars ticketId ++
    str "\n\nСообщение от модератора:\n" ++ responseText ++ str "\n\nСпасибо за обращение!"

/-- The ticket/notification core of `send_response` (src/bot.py:829-899):
re-extract the response from the preview message, look the ticket up, update
it to `responded` storing the extracted text, and relay that text to the
requester; `none` models the `"Обращение не найдено"` early return. -/
def send_response_step (db : TicketDB) (ticketId : Nat) (adminId : Int)
    (previewMsg : Str) (now : Nat) : Option (TicketDB × Int × Str) :=
  let responseText := extract_response previewMsg
  match get_ticket_by_id db ticketId with
  | none => none
  | some t =>
    let db1 := update_ticket_status db ticketId adminId (str "responded") (some responseText) now
    some (db1, t.userId, respondNoticeText ticketId t.ticketType responseText)

/-! ## Target resolution (`get_target_user`) -/

/-- A chat member as far as the moderation commands inspect it. -/
structure TgUser where
  id : Int
  isBot : Bool
deriving Repr, DecidableEq

/-- The only uncaught exception in the modeled fragment: indexing `parts[0]`
of an empty split result. -/
inductive PyError
  | indexError
deriving Repr, DecidableEq

/-- The fixed sentinel reason `"Без указания причины"`. -/
def defaultReason : Str := str "Без указания причины"

/-- `get_target_user` (src/bot.py:287-328), as a function of the reply
author (when the command message replies to a message with a sender), the
raw argument string, and the chat-directory lookups `chat.get_member` by
username and by numeric id (`none` models both `TelegramBadRequest` and the
generic exception handler, which the code maps to the same `(None, reason)`
result).  A non-empty all-whitespace argument string makes
`args.split(maxsplit=1)` return an empty list, so `parts[0]` raises
`IndexError`, modeled by `Except.error`. -/
def get_target_user (reply : Option TgUser) (args : Str)
    (byUsername : Str → Option TgUser) (byId : Int → Option TgUser) :
    Except PyError (Option TgUser × Str) :=
  match reply with
  | some ru =>
    let r := pyStrip args
    .ok (some ru, if r.isEmpty then defaultReason else r)
  | none =>
    if args.isEmpty then .ok (none, defaultReason)
    else
      match pySplit1 args with
      | [] => .error .indexError
      | tok :: restParts =>
        let identifier := pyStrip tok
        let reason :=
          match restParts with
          | r :: _ => pyStrip r
          | [] => defaultReason
        if isPre (str "@") identifier then
          .ok (byUsername (identifier.drop 1), reason)
        else if pyIsDigit identifier then
          .ok (byId (digitsVal identifier : Int), reason)
        else .ok (none, defaultReason)

/-! ## `mute_command` argument parsing and the duration parser -/

/-- Outcome of the target/duration/reason parsing of `mute_command`. -/
inductive MuteParse
  | err
  | noTarget
  | ready (target : TgUser) (muteTime : Str) (reason : Str)
deriving Repr, DecidableEq

/-- The argument parsing of `mute_command` (src/bot.py:1067-1113): in the
reply form the first token, when numeric, is the duration (suffixed `"m"`)
and the rest the reason, otherwise the whole argument string is the reason;
in the explicit-target form the first token resolves the target, then a
numeric second token is the duration and the third part the reason, while a
non-numeric second token alone becomes the reason (the third part is never
read in that branch). -/
def mute_parse (reply : Option TgUser) (args : Str)
    (byUsername : Str → Option TgUser) (byId : Int → Option TgUser) : MuteParse :=
  match reply with
  | some ru =>
    if args.isEmpty then .ready ru (str "30m") defaultReason
    else
      match pySplit1 args with
      | [] => .err
      | [tok] =>
        if pyIsDigit tok then .ready ru (tok ++ str "m") defaultReason
        else .ready ru (str "30m") args
      | tok :: rest :: _ =>
        if pyIsDigit tok then .ready ru (tok ++ str "m") rest
        else .ready ru (str "30m") args
  | none =>
    if args.isEmpty then .noTarget
    else
      match pySplit2 args with
      | [] => .noTarget
      | tok :: restParts =>
        let target : Option TgUser :=
          if isPre (str "@") tok then byUsername (tok.drop 1)
          else if pyIsDigit tok then byId (digitsVal tok : Int)
          else none
        match target with
        | none => .noTarget
        | some tu =>
          match restParts with
          | [] => .ready tu (str "30m") defaultReason
          | tok2 :: rest2 =>
            if pyIsDigit tok2 then
              match rest2 with
              | [] => .ready tu (tok2 ++ str "m") defaultReason
              | r3 :: _ => .ready tu (tok2 ++ str "m") r3
            else .ready tu (str "30m") tok2

/-- The duration-parsing block of `mute_command` (src/bot.py:1124-1144),
returning the restriction length in minutes (hours and days converted to
their minute equivalent); the `except` fallback of 30 minutes applies when
`int()` raises on the part before the suffix. -/
def parse_mute_time (mt : Str) : Int :=
  if endsIn mt 'm' then
    match pyInt? mt.dropLast with
    | some n => n
    | none => 30
  else if endsIn mt 'h' then
    match pyInt? mt.dropLast with
    | some n => n * 60
    | none => 30
  else if endsIn mt 'd' then
    match pyInt? mt.dropLast with
    | some n => n * 1440
    | none => 30
  else if pyIsDigit mt then (digitsVal mt : Int)
  else 30

/-! ## Guard sequences of the moderation commands -/

/-- The context every moderation handler consults before acting. -/
structure ModCtx where
  chatIsAllowed : Bool
  chatIsGroup : Bool
  actor : TgUser
  actorIsAdmin : Bool
  botCanRestrict : Bool
deriving Repr, DecidableEq

/-- How a moderation handler disposes of an invocation. -/
inductive CmdOutcome
  | notAllowedChat
  | notGroup
  | actorNotAdmin
  | botLacksRights
  | noTarget
  | selfTarget
  | botTarget
  | adminTarget
  | acted
deriving Repr, DecidableEq

/-- The guard sequence of `ban_command` (src/bot.py:962-1010): allowed chat,
group type, admin actor, bot restriction rights, target resolution, then the
three immunity checks (self, bot, administrator) before acting.  The target
argument carries the resolved user and whether they are an administrator. -/
def ban_checks (ctx : ModCtx) (target : Option (TgUser × Bool)) : CmdOutcome :=
  if !ctx.chatIsAllowed then .notAllowedChat
  else if !ctx.chatIsGroup then .notGroup
  else if !ctx.actorIsAdmin then .actorNotAdmin
  else if !ctx.botCanRestrict then .botLacksRights
  else
    match target with
    | none => .noTarget
    | some (t, tAdmin) =>
      if t.id == ctx.actor.id then .selfTarget
      else if t.isBot then .botTarget
      else if tAdmin then .adminTarget
      else .acted

/-- The guard sequence of `mute_command` (src/bot.py:1039-1122): identical to
the ban guards, immunity checks included. -/
def mute_checks (ctx : ModCtx) (target : Option (TgUser × Bool)) : CmdOutcome :=
  if !ctx.chatIsAllowed then .notAllowedChat
  else if !ctx.chatIsGroup then .notGroup
  else if !ctx.actorIsAdmin then .actorNotAdmin
  else if !ctx.botCanRestrict then .botLacksRights
  else
    match target with
    | none => .noTarget
    | some (t, tAdmin) =>
      if t.id == ctx.actor.id then .selfTarget
      else if t.isBot then .botTarget
      else if tAdmin then .adminTarget
      else .acted

/-- The guard sequence of `warn_command` (src/bot.py:1241-1278): like ban but
without the bot-rights check, with the same three immunity checks. -/
def warn_checks (ctx : ModCtx) (target : Option (TgUser × Bool)) : CmdOutcome :=
  if !ctx.chatIsAllowed then .notAllowedChat
  else if !ctx.chatIsGroup then .notGroup
  else if !ctx.actorIsAdmin then .actorNotAdmin
  else
    match target with
    | none => .noTarget
    | some (t, tAdmin) =>
      if t.id == ctx.actor.id then .selfTarget
      else if t.isBot then .botTarget
      else if tAdmin then .adminTarget
      else .acted

/-- The guard sequence of `unmute_command` (src/bot.py:1173-1238): allowed
chat, group type, admin actor, bot rights, target resolution — and then the
restriction is lifted immediately: none of the self/bot/administrator
immunity checks appears in this handler. -/
def unmute_checks (ctx : ModCtx) (target : Option (TgUser × Bool)) : CmdOutcome :=
  if !ctx.chatIsAllowed then .notAllowedChat
  else if !ctx.chatIsGroup then .notGroup
  else if !ctx.actorIsAdmin then .actorNotAdmin
  else if !ctx.botCanRestrict then .botLacksRights
  else
    match target with
    | none => .noTarget
    | some _ => .acted

/-! ## Supporting lemmas on the warning ledger -/

theorem length_insertByTs (w : Warn) (l : List Warn) :
    (insertByTs w l).length = l.length + 1 := by
  induction l with
  | nil => rfl
  | cons v rest ih =>
    simp only [insertByTs]
    split
    · simp [ih]
    · simp

theorem length_sortByTs (l : List Warn) : (sortByTs l).length = l.length := by
  induction l with
  | nil => rfl
  | cons w rest ih => simp [sortByTs, length_insertByTs, ih]

theorem get_user_warns_length (db : WarnDB) (c u : Int) :
    (get_user_warns_from_db db c u).length = (db.filter (warnMatches c u)).length := by
  simp [get_user_warns_from_db, length_sortByTs]

theorem warnMatches_new (db : WarnDB) (c u : Int) (reason : Str) (now : Nat) :
    warnMatches c u ⟨nextRowid db, c, u, reason, now⟩ = true := by
  simp [warnMatches]

theorem warnLedgerStep_filter_length (db : WarnDB) (c u : Int) (reason : Str) (now : Nat) :
    ((warnLedgerStep db c u reason now).db.filter (warnMatches c u)).length =
      (db.filter (warnMatches c u)).length + 1 := by
  simp [warnLedgerStep, add_warn_to_db, List.filter_append, warnMatches_new]

theorem warnLedgerStep_count (db : WarnDB) (c u : Int) (reason : Str) (now : Nat) :
    (warnLedgerStep db c u reason now).count = (db.filter (warnMatches c u)).length + 1 := by
  simp [warnLedgerStep, get_user_warns_length, add_warn_to_db, List.filter_append,
    warnMatches_new]

theorem warnLedgerStep_escalation (db : WarnDB) (c u : Int) (reason : Str) (now : Nat) :
    (warnLedgerStep db c u reason now).escalation =
      decide (3 ≤ (db.filter (warnMatches c u)).length + 1) := by
  simp [warnLedgerStep, get_user_warns_length, add_warn_to_db, List.filter_append,
    warnMatches_new]

theorem warnCalls_spec (c u : Int) (calls : List (Str × Nat)) :
    ∀ (db : WarnDB) (k : Nat), (db.filter (warnMatches c u)).length = k →
      ∀ i : Nat, i < (warnCalls db c u calls).length →
        ((warnCalls db c u calls).getD i default).count = k + i + 1 ∧
        ((warnCalls db c u calls).getD i default).escalation = decide (3 ≤ k + i + 1) := by
  induction calls with
  | nil => intro db k _ i hi; simp [warnCalls] at hi
  | cons p rest ih =>
    intro db k hk i hi
    obtain ⟨r, t⟩ := p
    match i with
    | 0 =>
      simp only [warnCalls, List.getD_cons_zero]
      rw [warnLedgerStep_count, warnLedgerStep_escalation, hk]
      exact ⟨rfl, rfl⟩
    | i + 1 =>
      simp only [warnCalls, List.getD_cons_succ]
      have hk1 : (((warnLedgerStep db c u r t).db).filter (warnMatches c u)).length = k + 1 := by
        rw [warnLedgerStep_filter_length, hk]
      have hi1 : i < (warnCalls (warnLedgerStep db c u r t).db c u rest).length := by
        simpa [warnCalls] using hi
      have h := ih (warnLedgerStep db c u r t).db (k + 1) hk1 i hi1
      have harith : k + 1 + i + 1 = k + (i + 1) + 1 := by omega
      rw [harith] at h
      exact h

/-! ## Claim C1 -/

/-- C1: counterexample.  On a fresh pair, the first four `warn` calls report
counts 1, 2, 3, 4, and the escalation recommendation (`warn_count >= 3` in
`warn_command`, src/bot.py:1298) is attached to the fourth call as well —
refuting that calls yielding counts 4 and above do not trigger it. -/
theorem warn_escalation_retriggers_at_four :
    (warnCalls [] 1 2 [(str "a", 10), (str "b", 11), (str "c", 12), (str "d", 13)]).map
        (fun r => (r.count, r.escalation)) =
      [(1, false), (2, false), (3, true), (4, true)] := by
  decide

/-- C1 (amended): on a fresh (community, subject) pair the k-th `warn` call
reports count k, and the escalation recommendation is emitted exactly when
the count is at least 3 — on the call reaching 3 and on every later call,
not only once. -/
theorem warn_count_and_escalation_flag (db : WarnDB) (c u : Int)
    (calls : List (Str × Nat)) (i : Nat)
    (hfresh : db.filter (warnMatches c u) = [])
    (hi : i < (warnCalls db c u calls).length) :
    ((warnCalls db c u calls).getD i default).count = i + 1 ∧
    ((warnCalls db c u calls).getD i default).escalation = decide (3 ≤ i + 1) := by
  have h := warnCalls_spec c u calls db 0 (by simp [hfresh]) i hi
  simpa using h

/-- Witness for C1: three calls on the empty table; the third call reports
count 3 with the escalation flag set. -/
theorem warn_count_and_escalation_flag_witness :
    ([] : WarnDB).filter (warnMatches 1 2) = [] ∧
    2 < (warnCalls [] 1 2 [(str "a", 1), (str "b", 2), (str "c", 3)]).length ∧
    ((warnCalls [] 1 2 [(str "a", 1), (str "b", 2), (str "c", 3)]).getD 2 default).count = 3 ∧
    ((warnCalls [] 1 2 [(str "a", 1), (str "b", 2), (str "c", 3)]).getD 2 default).escalation =
      decide (3 ≤ 3) := by
  refine ⟨by decide, by decide, ?_⟩
  have h := warn_count_and_escalation_flag [] 1 2 [(str "a", 1), (str "b", 2), (str "c", 3)] 2
    (by decide) (by decide)
  simpa using h

/-! ## Claim C8 -/

/-- C8: `unwarn_command` on a pair with an empty warning ledger reports that
there are no warnings to revoke and returns the table unchanged — no warning
record of any pair is deleted. -/
theorem unwarn_empty_ledger_noop (db : WarnDB) (c u : Int)
    (h : get_user_warns_from_db db c u = []) :
    unwarnStep db c u = (.noWarnings, db) := by
  simp [unwarnStep, h]

/-- Witness for C8: a table holding a warning for a different pair; revoking
for (1, 2) is a no-op that keeps that record. -/
theorem unwarn_empty_ledger_noop_witness :
    get_user_warns_from_db [⟨1, 9, 9, str "x", 5⟩] 1 2 = [] ∧
    unwarnStep [⟨1, 9, 9, str "x", 5⟩] 1 2 = (.noWarnings, [⟨1, 9, 9, str "x", 5⟩]) := by
  exact ⟨by decide, unwarn_empty_ledger_noop _ 1 2 (by decide)⟩

/-! ## Claim C4 -/

/-- C4: counterexample.  `"0"` is a bare integer, so the parser returns 0
minutes, not the claimed 30-minute default for non-positive input; and
`"99999d"` converts to 99999 days (143998560 minutes) because no 30-day
clamp exists in the code. -/
theorem parse_duration_zero_not_defaulted :
    parse_mute_time (str "0") = 0 ∧ parse_mute_time (str "0") ≠ 30 ∧
    parse_mute_time (str "99999d") = 143998560 ∧
    parse_mute_time (str "99999d") ≠ 43200 := by
  decide

/-- C4 (amended): the duration table as the code computes it — a bare
integer is that many minutes (including 0: there is no non-positive
fallback), `m`/`h`/`d` suffixes convert, only tokens whose numeric part
fails to parse fall back to the 30-minute default, and there is no upper
clamp (a negative suffixed value is even accepted as-is). -/
theorem parse_duration_table :
    parse_mute_time (str "10") = 10 ∧
    parse_mute_time (str "2h") = 120 ∧
    parse_mute_time (str "3d") = 4320 ∧
    parse_mute_time (str "0") = 0 ∧
    parse_mute_time (str "abc") = 30 ∧
    parse_mute_time (str "99999d") = 99999 * 1440 ∧
    parse_mute_time (str "-5m") = -5 ∧
    parse_mute_time (str "30m") = 30 := by
  decide

/-! ## Supporting lemmas on the ticket table -/

theorem le_foldr_max (l : List Nat) (x : Nat) (hx : x ∈ l) : x ≤ l.foldr max 0 := by
  induction l with
  | nil => simp at hx
  | cons y ys ih =>
    rcases List.mem_cons.mp hx with h | h
    · subst h; exact Nat.le_max_left _ _
    · exact le_trans (ih h) (Nat.le_max_right _ _)

theorem ticket_id_lt_next (db : TicketDB) (t : Ticket) (ht : t ∈ db) : t.id < nextTicketId db := by
  have h := le_foldr_max (db.map Ticket.id) t.id (List.mem_map_of_mem _ ht)
  simp only [nextTicketId]
  omega

theorem find?_append_none {α} (p : α → Bool) (l₁ l₂ : List α) (h : l₁.find? p = none) :
    (l₁ ++ l₂).find? p = l₂.find? p := by
  induction l₁ with
  | nil => simp
  | cons x xs ih =>
    cases hx : p x with
    | true => simp [List.find?_cons, hx] at h
    | false =>
      simp only [List.find?_cons, hx] at h
      simpa [List.find?_cons, hx] using ih h

/-- The row produced by the `'resolved'` branch of `update_ticket_status`. -/
def resolvedVersion (t : Ticket) (a : Int) (now : Nat) : Ticket :=
  { t with status := str "resolved", adminId := some a,
           adminResponse := some (str "Рассмотрено модератором"), resolvedAt := some now }

theorem find?_map_eq {α} (f : α → α) (p : α → Bool) (hf : ∀ x, p (f x) = p x) (l : List α) :
    (l.map f).find? p = (l.find? p).map f := by
  induction l with
  | nil => rfl
  | cons x xs ih =>
    cases hx : p x with
    | true => simp [List.find?_cons, hf, hx]
    | false => simp [List.find?_cons, hf, hx, ih]

theorem updRow_id (tid : Nat) (a : Int) (s : Str) (r : Option Str) (now : Nat) (t : Ticket) :
    (updRow tid a s r now t).id = t.id := by
  unfold updRow
  split
  · split <;> rfl
  · rfl

theorem get_update_ticket (db : TicketDB) (tid : Nat) (a : Int) (s : Str) (r : Option Str)
    (now : Nat) (t : Ticket) (h : get_ticket_by_id db tid = some t) :
    get_ticket_by_id (update_ticket_status db tid a s r now) tid =
      some (updRow tid a s r now t) := by
  unfold get_ticket_by_id update_ticket_status
  rw [find?_map_eq _ _ (fun x => by rw [updRow_id]) db]
  unfold get_ticket_by_id at h
  rw [h]
  rfl

theorem updRow_resolved (tid : Nat) (a : Int) (now : Nat) (t : Ticket) (htid : t.id = tid) :
    updRow tid a (str "resolved") (some (str "Рассмотрено модератором")) now t =
      resolvedVersion t a now := by
  unfold updRow resolvedVersion
  rw [if_pos htid, if_pos rfl]

theorem resolve_ticket_db (db : TicketDB) (tid : Nat) (a : Int) (now : Nat) :
    (resolve_ticket db tid a now).db =
      update_ticket_status db tid a (str "resolved") (some (str "Рассмотрено модератором")) now := by
  unfold resolve_ticket
  rcases hg : get_ticket_by_id (update_ticket_status db tid a (str "resolved")
      (some (str "Рассмотрено модератором")) now) tid with _ | t
  · simp [hg]
  · simp [hg]

theorem resolve_ticket_found (db : TicketDB) (tid : Nat) (a : Int) (now : Nat) (t : Ticket)
    (h : get_ticket_by_id db tid = some t) :
    get_ticket_by_id (resolve_ticket db tid a now).db tid = some (resolvedVersion t a now) ∧
    (resolve_ticket db tid a now).notified.isSome = true := by
  have h' : db.find? (fun x => x.id == tid) = some t := h
  have htid : t.id = tid := by
    have := List.find?_some h'
    simpa using this
  have hupd := get_update_ticket db tid a (str "resolved")
    (some (str "Рассмотрено модератором")) now t h
  rw [updRow_resolved tid a now t htid] at hupd
  refine ⟨?_, ?_⟩
  · rw [resolve_ticket_db]
    exact hupd
  · unfold resolve_ticket
    simp only
    rw [hupd]
    rfl

/-! ## Claim C2 -/

/-- C2: counterexample.  A ticket already in the terminal `responded` status
is moved to `resolved` by a later resolve action: `update_ticket_status`
performs an unconditional UPDATE and `resolve_ticket` never inspects the
prior status, so a non-Pending status does change again. -/
theorem ticket_status_overwritten_when_terminal :
    (get_ticket_by_id
        (resolve_ticket [⟨1, 7, none, none, none, str "Жалоба", str "hi", none,
          str "responded", none, none, 0, none⟩] 1 9 100).db 1).map Ticket.status =
      some (str "resolved") ∧
    str "resolved" ≠ str "responded" := by
  exact ⟨by decide, by decide⟩

/-- C2 (amended): a ticket is created with status `pending`, but the status
is not terminal: a resolve action overwrites the matching ticket's status,
admin fields and resolution timestamp regardless of its current status, so
any later moderator action on a non-Pending ticket changes it again. -/
theorem ticket_pending_then_overwritten :
    (∀ (db : TicketDB) (uid : Int) (un fn ln ph : Option Str) (tt msg : Str) (now : Nat),
      (get_ticket_by_id (add_support_ticket db uid un fn ln tt msg ph now).2
          (add_support_ticket db uid un fn ln tt msg ph now).1).map Ticket.status =
        some (str "pending")) ∧
    (∀ (db : TicketDB) (tid : Nat) (a : Int) (now : Nat) (t : Ticket),
      get_ticket_by_id db tid = some t →
      get_ticket_by_id (resolve_ticket db tid a now).db tid = some (resolvedVersion t a now)) := by
  constructor
  · intro db uid un fn ln ph tt msg now
    have hnone : db.find? (fun t => t.id == nextTicketId db) = none := by
      rw [List.find?_eq_none]
      intro t ht
      have := ticket_id_lt_next db t ht
      simp only [beq_iff_eq]
      omega
    simp only [add_support_ticket, get_ticket_by_id]
    rw [find?_append_none _ _ _ hnone]
    simp [List.find?_cons]
  · intro db tid a now t h
    exact (resolve_ticket_found db tid a now t h).1

/-- Witness for C2: a fresh ticket is pending and a resolve on a `responded`
ticket overwrites it. -/
theorem ticket_pending_then_overwritten_witness :
    (get_ticket_by_id (add_support_ticket [] 7 none none none (str "Жалоба") (str "hi") none 3).2
        (add_support_ticket [] 7 none none none (str "Жалоба") (str "hi") none 3).1).map
        Ticket.status = some (str "pending") ∧
    get_ticket_by_id [⟨1, 7, none, none, none, str "Жалоба", str "hi", none,
        str "responded", none, none, 0, none⟩] 1 =
      some ⟨1, 7, none, none, none, str "Жалоба", str "hi", none,
        str "responded", none, none, 0, none⟩ ∧
    get_ticket_by_id
        (resolve_ticket [⟨1, 7, none, none, none, str "Жалоба", str "hi", none,
          str "responded", none, none, 0, none⟩] 1 9 100).db 1 =
      some (resolvedVersion ⟨1, 7, none, none, none, str "Жалоба", str "hi", none,
        str "responded", none, none, 0, none⟩ 9 100) := by
  refine ⟨ticket_pending_then_overwritten.1 [] 7 none none none none (str "Жалоба")
    (str "hi") 3, by decide, ?_⟩
  exact ticket_pending_then_overwritten.2 _ 1 9 100 _ (by decide)

/-! ## Claim C3 -/

/-- C3: counterexample.  Two successive resolves of the same pending ticket:
the second call does not report any `AlreadyTerminal` outcome — it notifies
the requester again and overwrites `resolved_at` (100 becomes 200), so
`resolved_at` is not set exactly once. -/
theorem resolve_twice_renotifies_and_resets_timestamp :
    (get_ticket_by_id
        (resolve_ticket [⟨1, 7, none, none, none, str "Жалоба", str "hi", none,
          str "pending", none, none, 0, none⟩] 1 9 100).db 1).map Ticket.resolvedAt =
      some (some 100) ∧
    (get_ticket_by_id
        (resolve_ticket (resolve_ticket [⟨1, 7, none, none, none, str "Жалоба", str "hi", none,
          str "pending", none, none, 0, none⟩] 1 9 100).db 1 9 200).db 1).map Ticket.resolvedAt =
      some (some 200) ∧
    (resolve_ticket (resolve_ticket [⟨1, 7, none, none, none, str "Жалоба", str "hi", none,
        str "pending", none, none, 0, none⟩] 1 9 100).db 1 9 200).notified.isSome = true := by
  refine ⟨by decide, by decide, by decide⟩

/-- C3 (amended): resolve is not idempotent.  Every resolve call on an
existing ticket — whatever its status — notifies the requester and sets
`resolved_at` to that call's current time, so a second call re-notifies and
overwrites the timestamp recorded by the first. -/
theorem resolve_always_updates_and_notifies (db : TicketDB) (tid : Nat)
    (a1 a2 : Int) (n1 n2 : Nat) (t : Ticket) (h : get_ticket_by_id db tid = some t) :
    (resolve_ticket db tid a1 n1).notified.isSome = true ∧
    (get_ticket_by_id (resolve_ticket db tid a1 n1).db tid).map Ticket.resolvedAt =
      some (some n1) ∧
    (resolve_ticket (resolve_ticket db tid a1 n1).db tid a2 n2).notified.isSome = true ∧
    (get_ticket_by_id (resolve_ticket (resolve_ticket db tid a1 n1).db tid a2 n2).db tid).map
        Ticket.resolvedAt = some (some n2) := by
  obtain ⟨h1, h1n⟩ := resolve_ticket_found db tid a1 n1 t h
  obtain ⟨h2, h2n⟩ := resolve_ticket_found _ tid a2 n2 _ h1
  refine ⟨h1n, ?_, h2n, ?_⟩
  · rw [h1]; rfl
  · rw [h2]; rfl

/-- Witness for C3: the concrete double resolve of a pending ticket. -/
theorem resolve_always_updates_and_notifies_witness :
    get_ticket_by_id [⟨1, 7, none, none, none, str "Жалоба", str "hi", none,
        str "pending", none, none, 0, none⟩] 1 =
      some ⟨1, 7, none, none, none, str "Жалоба", str "hi", none,
        str "pending", none, none, 0, none⟩ ∧
    (resolve_ticket [⟨1, 7, none, none, none, str "Жалоба", str "hi", none,
        str "pending", none, none, 0, none⟩] 1 9 100).notified.isSome = true ∧
    (get_ticket_by_id (resolve_ticket (resolve_ticket [⟨1, 7, none, none, none, str "Жалоба",
        str "hi", none, str "pending", none, none, 0, none⟩] 1 9 100).db 1 8 200).db 1).map
        Ticket.resolvedAt = some (some 200) := by
  have h := resolve_always_updates_and_notifies
    [⟨1, 7, none, none, none, str "Жалоба", str "hi", none, str "pending", none, none, 0, none⟩]
    1 9 8 100 200
    ⟨1, 7, none, none, none, str "Жалоба", str "hi", none, str "pending", none, none, 0, none⟩
    (by decide)
  exact ⟨by decide, h.1, h.2.2.2⟩

/-! ## Claim C9 -/

/-- C9: once the shared pre-checks pass, `unmute_command` acts on every
resolved target with no immunity check, while `ban_command`, `mute_command`
and `warn_command` reject the very same self, bot and administrator targets. -/
theorem unmute_skips_immunity_checks (ctx : ModCtx) (t : TgUser) (tAdmin : Bool)
    (h1 : ctx.chatIsAllowed = true) (h2 : ctx.chatIsGroup = true)
    (h3 : ctx.actorIsAdmin = true) (h4 : ctx.botCanRestrict = true) :
    unmute_checks ctx (some (t, tAdmin)) = .acted ∧
    (t.id = ctx.actor.id →
      ban_checks ctx (some (t, tAdmin)) = .selfTarget ∧
      mute_checks ctx (some (t, tAdmin)) = .selfTarget ∧
      warn_checks ctx (some (t, tAdmin)) = .selfTarget) ∧
    (t.id ≠ ctx.actor.id → t.isBot = true →
      ban_checks ctx (some (t, tAdmin)) = .botTarget ∧
      mute_checks ctx (some (t, tAdmin)) = .botTarget ∧
      warn_checks ctx (some (t, tAdmin)) = .botTarget) ∧
    (t.id ≠ ctx.actor.id → t.isBot = false → tAdmin = true →
      ban_checks ctx (some (t, tAdmin)) = .adminTarget ∧
      mute_checks ctx (some (t, tAdmin)) = .adminTarget ∧
      warn_checks ctx (some (t, tAdmin)) = .adminTarget) := by
  refine ⟨?_, ?_, ?_, ?_⟩
  · simp [unmute_checks, h1, h2, h3, h4]
  · intro hs
    refine ⟨?_, ?_, ?_⟩ <;> simp [ban_checks, mute_checks, warn_checks, h1, h2, h3, h4, hs]
  · intro hs hb
    refine ⟨?_, ?_, ?_⟩ <;> simp [ban_checks, mute_checks, warn_checks, h1, h2, h3, h4, hs, hb]
  · intro hs hb ha
    refine ⟨?_, ?_, ?_⟩ <;> simp [ban_checks, mute_checks, warn_checks, h1, h2, h3, h4, hs, hb, ha]

/-- Witness for C9: a concrete passing context; unmute acts on the admin
actor themselves while ban would reject that same target. -/
theorem unmute_skips_immunity_checks_witness :
    unmute_checks ⟨true, true, ⟨5, false⟩, true, true⟩ (some (⟨5, false⟩, false)) = .acted ∧
    ban_checks ⟨true, true, ⟨5, false⟩, true, true⟩ (some (⟨5, false⟩, false)) = .selfTarget := by
  have h := unmute_skips_immunity_checks ⟨true, true, ⟨5, false⟩, true, true⟩ ⟨5, false⟩ false
    rfl rfl rfl rfl
  exact ⟨h.1, (h.2.1 rfl).1⟩

/-! ## Claim C10 -/

/-- C10: counterexample.  `/mute 55 2h spam` with an explicit target: the
non-numeric token `"2h"` alone becomes the reason — the trailing `"spam"`
is discarded, not made part of the reason — and the duration stays at the
default `"30m"`. -/
theorem mute_reason_token_dropped :
    mute_parse none (str "55 2h spam") (fun _ => none)
        (fun i => if i == 55 then some ⟨55, false⟩ else none) =
      .ready ⟨55, false⟩ (str "30m") (str "2h") ∧
    str "2h" ≠ str "2h spam" := by
  exact ⟨by decide, by decide⟩

/-- C10 (amended): only a bare-integer token after the target is a duration
(minutes); a non-numeric token leaves the 30-minute default — but the reason
it produces is the whole remaining text only in the reply form, while in the
explicit-target form it is that single token, the rest being discarded. -/
theorem mute_duration_and_reason_parsing (byU : Str → Option TgUser)
    (byId : Int → Option TgUser) (ru tuB tuC : TgUser)
    (argsA argsB argsC : Str) (tokA tokB tok2B tokC tok2C : Str)
    (restA : List Str) (rest2B : List Str) :
    (pySplit1 argsA = tokA :: restA → pyIsDigit tokA = false →
      mute_parse (some ru) argsA byU byId = .ready ru (str "30m") argsA) ∧
    (pySplit2 argsB = tokB :: tok2B :: rest2B →
      (if isPre (str "@") tokB then byU (tokB.drop 1)
       else if pyIsDigit tokB then byId (digitsVal tokB : Int) else none) = some tuB →
      pyIsDigit tok2B = false →
      mute_parse none argsB byU byId = .ready tuB (str "30m") tok2B) ∧
    (pySplit2 argsC = [tokC, tok2C] →
      (if isPre (str "@") tokC then byU (tokC.drop 1)
       else if pyIsDigit tokC then byId (digitsVal tokC : Int) else none) = some tuC →
      pyIsDigit tok2C = true →
      mute_parse none argsC byU byId = .ready tuC (tok2C ++ str "m") defaultReason) ∧
    parse_mute_time (str "30m") = 30 ∧ parse_mute_time (str "15m") = 15 := by
  refine ⟨?_, ?_, ?_, by decide, by decide⟩
  · intro hp hd
    cases argsA with
    | nil => simp [pySplit1] at hp
    | cons c cs =>
      simp only [mute_parse, List.isEmpty_cons, Bool.false_eq_true, if_false, hp]
      cases restA with
      | nil => simp [hd]
      | cons r rs => simp [hd]
  · intro hp ht hd
    cases argsB with
    | nil => simp [pySplit2] at hp
    | cons c cs =>
      simp only [mute_parse, List.isEmpty_cons, Bool.false_eq_true, if_false, hp, ht, hd]
  · intro hp ht hd
    cases argsC with
    | nil => simp [pySplit2] at hp
    | cons c cs =>
      simp only [mute_parse, List.isEmpty_cons, Bool.false_eq_true, if_false, hp, ht, hd]
      simp

/-- Witness for C10: `/mute 2h spam` in reply form keeps the whole reason,
`/mute 55 2h spam` keeps only `"2h"`, `/mute 55 15` yields a 15-minute
duration. -/
theorem mute_duration_and_reason_parsing_witness :
    pySplit1 (str "2h spam") = [str "2h", str "spam"] ∧
    mute_parse (some ⟨7, false⟩) (str "2h spam") (fun _ => none) (fun _ => none) =
      .ready ⟨7, false⟩ (str "30m") (str "2h spam") ∧
    pySplit2 (str "55 2h spam") = [str "55", str "2h", str "spam"] ∧
    mute_parse none (str "55 2h spam") (fun _ => none)
        (fun i => if i == 55 then some ⟨55, false⟩ else none) =
      .ready ⟨55, false⟩ (str "30m") (str "2h") ∧
    mute_parse none (str "55 15") (fun _ => none)
        (fun i => if i == 55 then some ⟨55, false⟩ else none) =
      .ready ⟨55, false⟩ (str "15" ++ str "m") defaultReason := by
  have h := mute_duration_and_reason_parsing (fun _ => none)
    (fun i => if i == 55 then some ⟨55, false⟩ else none) ⟨7, false⟩ ⟨55, false⟩ ⟨55, false⟩
    (str "2h spam") (str "55 2h spam") (str "55 15")
    (str "2h") (str "55") (str "2h") (str "55") (str "15")
    [str "spam"] [str "spam"]
  refine ⟨by decide, h.1 (by decide) (by decide), by decide,
    h.2.1 (by decide) (by decide) (by decide), h.2.2.1 (by decide) (by decide) (by decide)⟩

/-! ## Supporting lemmas on tokenization -/

theorem dropWhile_of_all_false {p : Char → Bool} (s : Str) (h : ∀ c ∈ s, p c = false) :
    s.dropWhile p = s := by
  cases s with
  | nil => rfl
  | cons c cs =>
    rw [List.dropWhile_cons, h c (by simp)]
    simp

theorem pyStrip_of_nospace (s : Str) (h : ∀ c ∈ s, pySpace c = false) : pyStrip s = s := by
  unfold pyStrip ltrim rtrim
  rw [dropWhile_of_all_false s h]
  rw [dropWhile_of_all_false s.reverse (by intro c hc; exact h c (List.mem_reverse.mp hc))]
  exact List.reverse_reverse s

theorem pySplit1_of_nil (tok : Str) (restParts : List Str)
    (hp : pySplit1 [] = tok :: restParts) : False := by
  simp [pySplit1] at hp

theorem pySplit1_head (args tok : Str) (restParts : List Str)
    (hp : pySplit1 args = tok :: restParts) :
    tok = (args.dropWhile pySpace).takeWhile notSpace := by
  unfold pySplit1 at hp
  dsimp only [] at hp
  split at hp
  · exact absurd hp (by simp)
  · split at hp
    · injection hp with h1 _
      exact h1.symm
    · injection hp with h1 _
      exact h1.symm

theorem pySplit1_head_nospace (args tok : Str) (restParts : List Str)
    (hp : pySplit1 args = tok :: restParts) : ∀ c ∈ tok, pySpace c = false := by
  intro c hc
  rw [pySplit1_head args tok restParts hp] at hc
  have := List.mem_takeWhile_imp hc
  simpa [notSpace] using this

theorem pySplit1_strip_head (args tok : Str) (restParts : List Str)
    (hp : pySplit1 args = tok :: restParts) : pyStrip tok = tok :=
  pyStrip_of_nospace tok (pySplit1_head_nospace args tok restParts hp)

/-! ## Claim C7 -/

/-- C7: counterexample.  A non-empty, all-whitespace argument string with no
reply: `args` is truthy but `args.split(maxsplit=1)` is empty, so
`parts[0]` raises `IndexError` instead of any result — the claimed
normalization to TargetNotFound does not cover this input. -/
theorem target_whitespace_args_raises :
    get_target_user none (str " ") (fun _ => none) (fun _ => none) = .error .indexError ∧
    (Except.error PyError.indexError ≠
      (Except.ok (none, defaultReason) : Except PyError (Option TgUser × Str))) := by
  exact ⟨rfl, fun h => Except.noConfusion h⟩

/-- C7 (amended): target resolution follows the claimed first-match-wins
order — a reply wins over any supplied text (the stripped text becomes the
reason), otherwise a leading `@`-token is looked up by handle, otherwise a
leading all-digit token is looked up by numeric id, otherwise the result is
TargetNotFound with the sentinel reason; trailing text after the identifying
token becomes the reason, defaulting to the sentinel when absent, and every
lookup failure surfaces as `none` (TargetNotFound) because the lookups
already carry their exception handling — except that a non-empty
all-whitespace argument string raises `IndexError` instead of returning
TargetNotFound. -/
theorem target_resolution_order (byU : Str → Option TgUser) (byId : Int → Option TgUser)
    (ru : TgUser) (argsR args1 args2 args3 args4 args5 args6 : Str)
    (tok1 tok2 tok3 tok4 tok5 : Str) (rest2 rest4 : Str) (restParts5 : List Str) :
    (get_target_user (some ru) argsR byU byId =
      .ok (some ru, if (pyStrip argsR).isEmpty then defaultReason else pyStrip argsR)) ∧
    (get_target_user none [] byU byId = .ok (none, defaultReason)) ∧
    (pySplit1 args1 = [tok1] → isPre (str "@") tok1 = true →
      get_target_user none args1 byU byId = .ok (byU (tok1.drop 1), defaultReason)) ∧
    (pySplit1 args2 = [tok2, rest2] → isPre (str "@") tok2 = true →
      get_target_user none args2 byU byId = .ok (byU (tok2.drop 1), pyStrip rest2)) ∧
    (pySplit1 args3 = [tok3] → isPre (str "@") tok3 = false → pyIsDigit tok3 = true →
      get_target_user none args3 byU byId = .ok (byId (digitsVal tok3 : Int), defaultReason)) ∧
    (pySplit1 args4 = [tok4, rest4] → isPre (str "@") tok4 = false → pyIsDigit tok4 = true →
      get_target_user none args4 byU byId = .ok (byId (digitsVal tok4 : Int), pyStrip rest4)) ∧
    (pySplit1 args5 = tok5 :: restParts5 → isPre (str "@") tok5 = false →
      pyIsDigit tok5 = false →
      get_target_user none args5 byU byId = .ok (none, defaultReason)) ∧
    (args6.isEmpty = false → pySplit1 args6 = [] →
      get_target_user none args6 byU byId = .error .indexError) := by
  refine ⟨rfl, rfl, ?_, ?_, ?_, ?_, ?_, ?_⟩
  · intro hp hat
    cases args1 with
    | nil => exact absurd hp (by simp [pySplit1])
    | cons c cs =>
      have hstrip := pySplit1_strip_head _ _ _ hp
      simp only [get_target_user, List.isEmpty_cons, Bool.false_eq_true, if_false, hp,
        hstrip, hat, if_true]
  · intro hp hat
    cases args2 with
    | nil => exact absurd hp (by simp [pySplit1])
    | cons c cs =>
      have hstrip := pySplit1_strip_head _ _ _ hp
      simp only [get_target_user, List.isEmpty_cons, Bool.false_eq_true, if_false, hp,
        hstrip, hat, if_true]
  · intro hp hat hdig
    cases args3 with
    | nil => exact absurd hp (by simp [pySplit1])
    | cons c cs =>
      have hstrip := pySplit1_strip_head _ _ _ hp
      simp only [get_target_user, List.isEmpty_cons, Bool.false_eq_true, if_false, hp,
        hstrip, hat, hdig, if_true]
  · intro hp hat hdig
    cases args4 with
    | nil => exact absurd hp (by simp [pySplit1])
    | cons c cs =>
      have hstrip := pySplit1_strip_head _ _ _ hp
      simp only [get_target_user, List.isEmpty_cons, Bool.false_eq_true, if_false, hp,
        hstrip, hat, hdig, if_true]
  · intro hp hat hdig
    cases args5 with
    | nil => exact absurd hp (by simp [pySplit1])
    | cons c cs =>
      have hstrip := pySplit1_strip_head _ _ _ hp
      cases restParts5 with
      | nil =>
        simp only [get_target_user, List.isEmpty_cons, Bool.false_eq_true, if_false, hp,
          hstrip, hat, hdig]
      | cons r rs =>
        simp only [get_target_user, List.isEmpty_cons, Bool.false_eq_true, if_false, hp,
          hstrip, hat, hdig]
  · intro hne hp
    cases args6 with
    | nil => simp at hne
    | cons c cs =>
      simp only [get_target_user, List.isEmpty_cons, Bool.false_eq_true, if_false, hp]

/-- Witness for C7: concrete resolutions through a small member directory —
a reply with trailing text, `@bob spam `, `77  spam`, an unresolvable first
token, and the all-whitespace crash input. -/
theorem target_resolution_order_witness :
    pySplit1 (str "@bob spam ") = [str "@bob", str "spam "] ∧
    pySplit1 (str "77  spam") = [str "77", str "spam"] ∧
    pySplit1 (str "bob spam") = [str "bob", str "spam"] ∧
    get_target_user (some ⟨7, false⟩) (str "  hey  ")
        (fun s => if s = str "bob" then some ⟨55, false⟩ else none)
        (fun i => if i == 77 then some ⟨77, false⟩ else none) =
      .ok (some ⟨7, false⟩, str "hey") ∧
    get_target_user none (str "@bob spam ")
        (fun s => if s = str "bob" then some ⟨55, false⟩ else none)
        (fun i => if i == 77 then some ⟨77, false⟩ else none) =
      .ok (some ⟨55, false⟩, str "spam") ∧
    get_target_user none (str "77  spam")
        (fun s => if s = str "bob" then some ⟨55, false⟩ else none)
        (fun i => if i == 77 then some ⟨77, false⟩ else none) =
      .ok (some ⟨77, false⟩, str "spam") ∧
    get_target_user none (str "bob spam")
        (fun s => if s = str "bob" then some ⟨55, false⟩ else none)
        (fun i => if i == 77 then some ⟨77, false⟩ else none) =
      .ok (none, defaultReason) ∧
    get_target_user none (str "  ")
        (fun s => if s = str "bob" then some ⟨55, false⟩ else none)
        (fun i => if i == 77 then some ⟨77, false⟩ else none) = .error .indexError := by
  have h := target_resolution_order
    (fun s => if s = str "bob" then some ⟨55, false⟩ else none)
    (fun i => if i == 77 then some ⟨77, false⟩ else none) ⟨7, false⟩
    (str "  hey  ") (str "@bob") (str "@bob spam ") (str "77") (str "77  spam")
    (str "bob spam") (str "  ")
    (str "@bob") (str "@bob") (str "77") (str "77") (str "bob")
    (str "spam ") (str "spam") [str "spam"]
  refine ⟨by decide, by decide, by decide, ?_, ?_, ?_, ?_, ?_⟩
  · have := h.1
    simpa using this
  · have := h.2.2.2.1 (by decide) (by decide)
    simpa using this
  · have := h.2.2.2.2.2.1 (by decide) (by decide) (by decide)
    simpa using this
  · exact h.2.2.2.2.2.2.1 (by decide) (by decide) (by decide)
  · exact h.2.2.2.2.2.2.2 (by decide) (by decide)

/-! ## Supporting lemmas for the revoke-last-warning subquery -/

theorem pickMax_mem (best : Warn) (l : List Warn) : pickMax best l ∈ best :: l := by
  induction l generalizing best with
  | nil => simp [pickMax]
  | cons v rest ih =>
    simp only [pickMax]
    have h := ih (if best.timestamp < v.timestamp then v else best)
    rcases List.mem_cons.mp h with h1 | h1
    · rw [h1]
      split
      · simp
      · simp
    · simp [h1]

theorem pickMax_ts_ge (best : Warn) (l : List Warn) :
    ∀ x ∈ best :: l, x.timestamp ≤ (pickMax best l).timestamp := by
  induction l generalizing best with
  | nil =>
    intro x hx
    rcases List.mem_cons.mp hx with h | h
    · rw [h]; simp [pickMax]
    · simp at h
  | cons v rest ih =>
    intro x hx
    simp only [pickMax]
    have hbest : best.timestamp ≤ (if best.timestamp < v.timestamp then v else best).timestamp := by
      split
      · omega
      · exact le_refl _
    have hv : v.timestamp ≤ (if best.timestamp < v.timestamp then v else best).timestamp := by
      split
      · exact le_refl _
      · omega
    have htop := ih (if best.timestamp < v.timestamp then v else best) _ (List.mem_cons_self _ _)
    rcases List.mem_cons.mp hx with h | h
    · rw [h]; exact le_trans hbest htop
    · rcases List.mem_cons.mp h with h2 | h2
      · rw [h2]; exact le_trans hv htop
      · exact ih _ x (List.mem_cons_of_mem _ h2)

theorem pickMax_first (best : Warn) (l : List Warn)
    (hpw : ((best :: l).map Warn.rowid).Pairwise (· < ·)) :
    ∀ x ∈ best :: l, x.timestamp = (pickMax best l).timestamp →
      (pickMax best l).rowid ≤ x.rowid := by
  induction l generalizing best with
  | nil =>
    intro x hx _
    rcases List.mem_cons.mp hx with h | h
    · rw [h]; simp [pickMax]
    · simp at h
  | cons v rest ih =>
    intro x hx hts
    simp only [List.map_cons, List.pairwise_cons] at hpw
    obtain ⟨hhead, hvrest, hrest⟩ := hpw
    by_cases hlt : best.timestamp < v.timestamp
    · simp only [pickMax, if_pos hlt] at hts ⊢
      have hpw' : ((v :: rest).map Warn.rowid).Pairwise (· < ·) := by
        simp only [List.map_cons, List.pairwise_cons]
        exact ⟨hvrest, hrest⟩
      rcases List.mem_cons.mp hx with h | h
      · exfalso
        rw [h] at hts
        have := pickMax_ts_ge v rest v (List.mem_cons_self _ _)
        omega
      · exact ih v hpw' x h hts
    · simp only [pickMax, if_neg hlt] at hts ⊢
      have hpw' : ((best :: rest).map Warn.rowid).Pairwise (· < ·) := by
        simp only [List.map_cons, List.pairwise_cons]
        exact ⟨fun r hr => hhead r (List.mem_cons_of_mem _ hr), hrest⟩
      rcases List.mem_cons.mp hx with h | h
      · exact ih best hpw' x (h ▸ List.mem_cons_self _ _) hts
      · rcases List.mem_cons.mp h with h2 | h2
        · rw [h2]
          have h1 : best.timestamp ≤ (pickMax best rest).timestamp :=
            pickMax_ts_ge best rest best (List.mem_cons_self _ _)
          have h2' : (pickMax best rest).rowid ≤ best.rowid := by
            apply ih best hpw' best (List.mem_cons_self _ _)
            rw [h2] at hts
            omega
          have h3 : best.rowid < v.rowid := hhead _ (List.mem_cons_self _ _)
          omega
        · exact ih best hpw' x (List.mem_cons_of_mem _ h2) hts

theorem filter_ne_rowid_length (db : WarnDB) (r : Nat)
    (hnodup : (db.map Warn.rowid).Nodup) (hmem : r ∈ db.map Warn.rowid) :
    (db.filter (fun w => w.rowid ≠ r)).length + 1 = db.length := by
  induction db with
  | nil => simp at hmem
  | cons x rest ih =>
    simp only [List.map_cons, List.nodup_cons] at hnodup
    rcases List.mem_cons.mp hmem with h | h
    · have hx : (decide (x.rowid ≠ r)) = false := by simp [h]
      have hrest : rest.filter (fun w => decide (w.rowid ≠ r)) = rest := by
        apply List.filter_eq_self.mpr
        intro w hw
        simp only [decide_eq_true_eq]
        intro hwr
        apply hnodup.1
        have hx' : x.rowid = w.rowid := by omega
        rw [hx']
        exact List.mem_map_of_mem Warn.rowid hw
      rw [List.filter_cons, hx]
      simp only [Bool.false_eq_true, if_false, hrest, List.length_cons]
    · have hx : (decide (x.rowid ≠ r)) = true := by
        simp only [decide_eq_true_eq]
        intro hxr
        exact hnodup.1 (hxr ▸ h)
      rw [List.filter_cons, hx]
      have := ih hnodup.2 h
      simp only [if_true, List.length_cons]
      omega

/-! ## Claim C5 -/

/-- C5: counterexample.  Two warnings of the same pair carry the same
timestamp; the most recently inserted is the one with rowid 2, but the
delete-with-subquery removes the row with rowid 1 — SQLite's sorter keeps
the first row in scan order among equal `ORDER BY timestamp DESC` keys — so
the earliest-inserted warning is removed, not the most recently inserted. -/
theorem revoke_tie_removes_earliest_inserted :
    remove_last_warn_from_db [⟨1, 1, 2, str "first", 100⟩, ⟨2, 1, 2, str "second", 100⟩] 1 2 =
      [⟨2, 1, 2, str "second", 100⟩] ∧
    (⟨1, 1, 2, str "first", 100⟩ : Warn).timestamp =
      (⟨2, 1, 2, str "second", 100⟩ : Warn).timestamp ∧
    (⟨1, 1, 2, str "first", 100⟩ : Warn).rowid < (⟨2, 1, 2, str "second", 100⟩ : Warn).rowid := by
  exact ⟨by decide, rfl, by decide⟩

/-- C5 (amended): on a non-empty ledger the single delete-with-subquery
removes exactly one warning of the pair, one carrying the maximum timestamp
— so no remaining warning of the pair has a strictly later timestamp — but
among equal maximal timestamps the removed row is the earliest inserted
(smallest rowid), not the most recently inserted. -/
theorem revoke_removes_unique_max_timestamp (db : WarnDB) (c u : Int)
    (hinc : (db.map Warn.rowid).Pairwise (· < ·))
    (hne : db.filter (warnMatches c u) ≠ []) :
    ∃ w : Warn, w ∈ db ∧ warnMatches c u w = true ∧
      remove_last_warn_from_db db c u = db.filter (fun v => v.rowid ≠ w.rowid) ∧
      (remove_last_warn_from_db db c u).length + 1 = db.length ∧
      (∀ v ∈ db, warnMatches c u v = true → v.timestamp ≤ w.timestamp) ∧
      (∀ v ∈ db, warnMatches c u v = true → v.timestamp = w.timestamp → w.rowid ≤ v.rowid) := by
  obtain ⟨w0, ws, hfl⟩ := List.exists_cons_of_ne_nil hne
  have hmemfl : pickMax w0 ws ∈ w0 :: ws := pickMax_mem w0 ws
  have hmemdb : pickMax w0 ws ∈ db := List.mem_of_mem_filter (hfl ▸ hmemfl)
  have hmatch : warnMatches c u (pickMax w0 ws) = true := List.of_mem_filter (hfl ▸ hmemfl)
  have hrem : remove_last_warn_from_db db c u =
      db.filter (fun v => v.rowid ≠ (pickMax w0 ws).rowid) := by
    unfold remove_last_warn_from_db lastWarnRowid
    rw [hfl]
  have hsub : List.Sublist (w0 :: ws) db := hfl ▸ List.filter_sublist db
  have hplfl : ((w0 :: ws).map Warn.rowid).Pairwise (· < ·) :=
    hinc.sublist (hsub.map Warn.rowid)
  refine ⟨pickMax w0 ws, hmemdb, hmatch, hrem, ?_, ?_, ?_⟩
  · rw [hrem]
    exact filter_ne_rowid_length db (pickMax w0 ws).rowid
      (hinc.imp fun h => Nat.ne_of_lt h) (List.mem_map_of_mem Warn.rowid hmemdb)
  · intro v hv hm
    have hvfl : v ∈ w0 :: ws := hfl ▸ List.mem_filter.mpr ⟨hv, hm⟩
    exact pickMax_ts_ge w0 ws v hvfl
  · intro v hv hm hts
    have hvfl : v ∈ w0 :: ws := hfl ▸ List.mem_filter.mpr ⟨hv, hm⟩
    exact pickMax_first w0 ws hplfl v hvfl hts

/-- Witness for C5: a two-row ledger with distinct timestamps; the delete
removes the later (maximal) one. -/
theorem revoke_removes_unique_max_timestamp_witness :
    (([⟨1, 1, 2, str "a", 5⟩, ⟨2, 1, 2, str "b", 7⟩] : WarnDB).map Warn.rowid).Pairwise
      (· < ·) ∧
    ([⟨1, 1, 2, str "a", 5⟩, ⟨2, 1, 2, str "b", 7⟩] : WarnDB).filter (warnMatches 1 2) ≠ [] ∧
    (∃ w : Warn, w ∈ ([⟨1, 1, 2, str "a", 5⟩, ⟨2, 1, 2, str "b", 7⟩] : WarnDB) ∧
      warnMatches 1 2 w = true ∧
      remove_last_warn_from_db [⟨1, 1, 2, str "a", 5⟩, ⟨2, 1, 2, str "b", 7⟩] 1 2 =
        ([⟨1, 1, 2, str "a", 5⟩, ⟨2, 1, 2, str "b", 7⟩] : WarnDB).filter
          (fun v => v.rowid ≠ w.rowid) ∧
      (remove_last_warn_from_db [⟨1, 1, 2, str "a", 5⟩, ⟨2, 1, 2, str "b", 7⟩] 1 2).length + 1 =
        ([⟨1, 1, 2, str "a", 5⟩, ⟨2, 1, 2, str "b", 7⟩] : WarnDB).length ∧
      (∀ v ∈ ([⟨1, 1, 2, str "a", 5⟩, ⟨2, 1, 2, str "b", 7⟩] : WarnDB),
        warnMatches 1 2 v = true → v.timestamp ≤ w.timestamp) ∧
      (∀ v ∈ ([⟨1, 1, 2, str "a", 5⟩, ⟨2, 1, 2, str "b", 7⟩] : WarnDB),
        warnMatches 1 2 v = true → v.timestamp = w.timestamp → w.rowid ≤ v.rowid)) := by
  refine ⟨by decide, by decide, ?_⟩
  exact revoke_removes_unique_max_timestamp
    [⟨1, 1, 2, str "a", 5⟩, ⟨2, 1, 2, str "b", 7⟩] 1 2 (by decide) (by decide)

/-! ## Supporting lemmas for the respond pipeline -/

theorem natCharsAux_digits (fuel : Nat) :
    ∀ n, ∀ c ∈ natCharsAux fuel n, c ∈ str "0123456789" := by
  induction fuel with
  | zero => intro n c hc; simp [natCharsAux] at hc
  | succ fuel ih =>
    intro n c hc
    rw [natCharsAux] at hc
    by_cases h10 : n < 10
    · rw [if_pos h10] at hc
      rw [List.mem_singleton.mp hc]
      have hd : ∀ m, m < 10 → Nat.digitChar m ∈ str "0123456789" := by decide
      exact hd n h10
    · rw [if_neg h10] at hc
      rcases List.mem_append.mp hc with h | h
      · exact ih (n / 10) c h
      · rw [List.mem_singleton.mp h]
        have hd : ∀ m, m < 10 → Nat.digitChar m ∈ str "0123456789" := by decide
        exact hd (n % 10) (Nat.mod_lt _ (by omega))

theorem natChars_digits (n : Nat) : ∀ c ∈ natChars n, c ∈ str "0123456789" :=
  natCharsAux_digits (n + 1) n

theorem natChars_no_nl (n : Nat) : ∀ c ∈ natChars n, (c == '\n') = false := by
  intro c hc
  have hmem := natChars_digits n c hc
  have hall : ∀ c ∈ str "0123456789", (c == '\n') = false := by decide
  exact hall c hmem

theorem splitNl_ne_nil (s : Str) : splitNl s ≠ [] := by
  cases s with
  | nil => simp [splitNl]
  | cons c rest =>
    simp only [splitNl]
    split
    · simp
    · cases h : splitNl rest with
      | nil => simp
      | cons l ls => simp

/-- Prepend a newline-free prefix onto the first piece of a split. -/
def consFirst (a : Str) : List Str → List Str
  | [] => [a]
  | l :: ls => (a ++ l) :: ls

theorem splitNl_nl (s : Str) : splitNl ('\n' :: s) = [] :: splitNl s := by
  simp [splitNl]

theorem splitNl_append (a b : Str) (ha : ∀ c ∈ a, (c == '\n') = false) :
    splitNl (a ++ b) = consFirst a (splitNl b) := by
  induction a with
  | nil =>
    simp only [List.nil_append]
    cases h : splitNl b with
    | nil => exact absurd h (splitNl_ne_nil b)
    | cons l ls => simp [consFirst]
  | cons c cs ih =>
    have hc : (c == '\n') = false := ha c (List.mem_cons_self _ _)
    simp only [List.cons_append, splitNl, hc, Bool.false_eq_true, if_false, List.append_eq]
    rw [ih (fun x hx => ha x (List.mem_cons_of_mem _ hx))]
    cases h : splitNl b with
    | nil => exact absurd h (splitNl_ne_nil b)
    | cons l ls => simp [consFirst]

/-- The confirmation line closing the preview message. -/
def confirmLine : Str := str "Подтвердите отправку:"

theorem preview_decomp (tid : Nat) (t : Str) :
    preview_text tid t =
      (str "Предпросмотр ответа для обращения #" ++ natChars tid) ++
        ('\n' :: '\n' :: (markerLine ++ ('\n' :: (t ++ ('\n' :: '\n' :: confirmLine))))) := by
  unfold preview_text
  have h2 : str "\n\nВаш ответ:\n" = '\n' :: '\n' :: (markerLine ++ ['\n']) := rfl
  have h3 : str "\n\nПодтвердите отправку:" = '\n' :: '\n' :: confirmLine := rfl
  rw [h2, h3]
  simp [List.append_assoc]

theorem splitNl_preview (tid : Nat) (t : Str) (hnl : ∀ c ∈ t, (c == '\n') = false) :
    splitNl (preview_text tid t) =
      [str "Предпросмотр ответа для обращения #" ++ natChars tid, [], markerLine, t, [],
        confirmLine] := by
  rw [preview_decomp]
  have hL1 : ∀ c ∈ str "Предпросмотр ответа для обращения #" ++ natChars tid,
      (c == '\n') = false := by
    intro c hc
    rcases List.mem_append.mp hc with h | h
    · have hall : ∀ c ∈ str "Предпросмотр ответа для обращения #", (c == '\n') = false := by
        decide
      exact hall c h
    · exact natChars_no_nl tid c h
  have hmk : ∀ c ∈ markerLine, (c == '\n') = false := by decide
  have hcl : splitNl confirmLine = [confirmLine] := by decide
  rw [splitNl_append _ _ hL1, splitNl_nl, splitNl_nl, splitNl_append _ _ hmk, splitNl_nl,
    splitNl_append _ _ hnl, splitNl_nl, splitNl_nl, hcl]
  simp [consFirst]

theorem extractLoop_preview (L1 t : Str)
    (hne : t.isEmpty = false)
    (hmark : hasSub markerLine t = false) (hconf : isPre confirmTok t = false)
    (hL1conf : isPre confirmTok L1 = false) :
    extractLoop [L1, [], markerLine, t, [], confirmLine] false [] = t ++ ['\n'] := by
  have hm0 : hasSub markerLine ([] : Str) = false := rfl
  have hc0 : isPre confirmTok ([] : Str) = false := rfl
  have hmm : hasSub markerLine markerLine = true := rfl
  have hmcl : hasSub markerLine confirmLine = false := by decide
  have hccl : isPre confirmTok confirmLine = true := rfl
  have tail4 : extractLoop [t, [], confirmLine] true [] = t ++ ['\n'] := by
    simp only [extractLoop, hmark, Bool.false_eq_true, if_false, hne, hconf, Bool.not_false,
      Bool.and_true, Bool.true_and, if_true, hm0, hc0, List.isEmpty_nil, Bool.not_true,
      Bool.and_false, hmcl, hccl, List.nil_append]
  cases hm1 : hasSub markerLine L1 with
  | true =>
    simp only [extractLoop, hm1, if_true, hm0, List.isEmpty_nil, Bool.not_true, Bool.and_false,
      Bool.false_eq_true, if_false, Bool.true_and, hc0, hmm]
    exact tail4
  | false =>
    simp only [extractLoop, hm1, Bool.false_eq_true, if_false, Bool.false_and, hL1conf, hm0,
      List.isEmpty_nil, Bool.not_true, Bool.and_false, hc0, hmm, if_true]
    exact tail4

theorem strip_self_parts (t : Str) (h : pyStrip t = t) : ltrim t = t ∧ rtrim t = t := by
  have l1 : (ltrim t).length ≤ t.length :=
    List.Sublist.length_le (List.dropWhile_sublist _)
  have l2 : (rtrim (ltrim t)).length ≤ (ltrim t).length := by
    unfold rtrim
    rw [List.length_reverse]
    calc (List.dropWhile pySpace (ltrim t).reverse).length
        ≤ (ltrim t).reverse.length := List.Sublist.length_le (List.dropWhile_sublist _)
      _ = (ltrim t).length := List.length_reverse _
  have hlen : t.length = (pyStrip t).length := by rw [h]
  unfold pyStrip at hlen
  have e1 : (ltrim t).length = t.length := by omega
  have hl : ltrim t = t := List.Sublist.eq_of_length (List.dropWhile_sublist _) e1
  refine ⟨hl, ?_⟩
  have hr : rtrim t = pyStrip t := by unfold pyStrip; rw [hl]
  rw [hr, h]

theorem pyStrip_append_nl (t : Str) (hne : t ≠ []) (h : pyStrip t = t) :
    pyStrip (t ++ ['\n']) = t := by
  obtain ⟨hl, hr⟩ := strip_self_parts t h
  obtain ⟨c, t', rfl⟩ := List.exists_cons_of_ne_nil hne
  have hc : pySpace c = false := by
    by_contra hcc
    have hcc' : pySpace c = true := by simpa using hcc
    unfold ltrim at hl
    rw [List.dropWhile_cons, if_pos hcc'] at hl
    have hle := List.Sublist.length_le (List.dropWhile_sublist (l := t') (p := pySpace))
    rw [hl] at hle
    simp at hle
  unfold pyStrip ltrim
  rw [List.cons_append, List.dropWhile_cons, if_neg (by simp [hc])]
  unfold rtrim
  rw [show (c :: (t' ++ ['\n'])).reverse = '\n' :: (c :: t').reverse from by simp]
  rw [List.dropWhile_cons, if_pos (by rfl)]
  unfold rtrim at hr
  have hrev := congrArg List.reverse hr
  rw [List.reverse_reverse] at hrev
  rw [hrev, List.reverse_reverse]

theorem extract_response_preview (tid : Nat) (t : Str)
    (hne : t ≠ []) (hnl : ∀ c ∈ t, (c == '\n') = false)
    (hstrip : pyStrip t = t)
    (hmark : hasSub markerLine t = false) (hconf : isPre confirmTok t = false) :
    extract_response (preview_text tid t) = t := by
  unfold extract_response
  rw [splitNl_preview tid t hnl]
  have hne' : t.isEmpty = false := by
    cases t with
    | nil => exact absurd rfl hne
    | cons c cs => rfl
  have hL1conf : isPre confirmTok (str "Предпросмотр ответа для обращения #" ++ natChars tid) =
      false := rfl
  rw [extractLoop_preview _ t hne' hmark hconf hL1conf]
  exact pyStrip_append_nl t hne hstrip

/-! ## Claim C6 -/

/-- C6: counterexample.  The moderator's response `"a\n\nb"` survives the
preview round-trip of `send_response` only as `"a\nb"`: the re-extraction
loop drops blank lines, so the stored response and the text relayed to the
requester are not the moderator's text verbatim. -/
theorem respond_drops_blank_lines :
    extract_response (preview_text 1 (str "a\n\nb")) = str "a\nb" ∧
    str "a\nb" ≠ str "a\n\nb" ∧
    (send_response_step [⟨1, 7, none, none, none, str "Жалоба", str "hi", none,
        str "pending", none, none, 0, none⟩] 1 9 (preview_text 1 (str "a\n\nb")) 50).map
        (fun r => (get_ticket_by_id r.1 1).map Ticket.adminResponse) =
      some (some (some (str "a\nb"))) := by
  refine ⟨by decide, by decide, by decide⟩

/-- C6 (amended): respond stores and relays the text re-extracted from the
preview message rather than the original responseText, and that extraction
drops blank lines, so the round-trip is not verbatim in general (the
counterexample).  In particular — a sufficient condition, not a
characterization — when the response is a single non-blank line with no
surrounding whitespace, not containing the `"Ваш ответ:"` marker and not
starting with `"Подтвердите"`, the round-trip is the identity: the ticket
stores the text verbatim and the requester notification relays exactly that
text, prefixed with the ticket context. -/
theorem respond_roundtrip_single_line (db : TicketDB) (tid : Nat) (a : Int) (now : Nat)
    (tk : Ticket) (t : Str)
    (hfound : get_ticket_by_id db tid = some tk)
    (hne : t ≠ []) (hnl : ∀ c ∈ t, (c == '\n') = false)
    (hstrip : pyStrip t = t)
    (hmark : hasSub markerLine t = false) (hconf : isPre confirmTok t = false) :
    extract_response (preview_text tid t) = t ∧
    send_response_step db tid a (preview_text tid t) now =
      some (update_ticket_status db tid a (str "responded") (some t) now, tk.userId,
        respondNoticeText tid tk.ticketType t) ∧
    respondNoticeText tid tk.ticketType t =
      (str "Ответ на ваше " ++ tk.ticketType.map Char.toLower ++ str " #" ++ natChars tid ++
        str "\n\nСообщение от модератора:\n") ++ t ++ str "\n\nСпасибо за обращение!" := by
  have hext := extract_response_preview tid t hne hnl hstrip hmark hconf
  refine ⟨hext, ?_, by simp [respondNoticeText, List.append_assoc]⟩
  unfold send_response_step
  rw [hext, hfound]

/-- Witness for C6: the single-line response `"ok"` on a pending ticket is
stored and relayed verbatim. -/
theorem respond_roundtrip_single_line_witness :
    get_ticket_by_id [⟨1, 7, none, none, none, str "Жалоба", str "hi", none,
        str "pending", none, none, 0, none⟩] 1 =
      some ⟨1, 7, none, none, none, str "Жалоба", str "hi", none,
        str "pending", none, none, 0, none⟩ ∧
    extract_response (preview_text 1 (str "ok")) = str "ok" ∧
    send_response_step [⟨1, 7, none, none, none, str "Жалоба", str "hi", none,
        str "pending", none, none, 0, none⟩] 1 9 (preview_text 1 (str "ok")) 50 =
      some (update_ticket_status [⟨1, 7, none, none, none, str "Жалоба", str "hi", none,
          str "pending", none, none, 0, none⟩] 1 9 (str "responded") (some (str "ok")) 50, 7,
        respondNoticeText 1 (str "Жалоба") (str "ok")) := by
  have h := respond_roundtrip_single_line
    [⟨1, 7, none, none, none, str "Жалоба", str "hi", none, str "pending", none, none, 0, none⟩]
    1 9 50
    ⟨1, 7, none, none, none, str "Жалоба", str "hi", none, str "pending", none, none, 0, none⟩
    (str "ok") (by decide) (by decide) (by decide) (by decide) (by decide) (by decide)
  exact ⟨by decide, h.1, h.2.1⟩

end ModBot
